import Mathlib

/-!
Verification of the event-detection core of `neo4j-text2sql`.

This file gives a shallow embedding, in Lean 4, of:

* the in-process CEP engine `SimpleCEPEngine` of `app/core/simple_cep.py`
  (`send_event`, `_evaluate_rule`, `_check_condition`, `register_rule`),
* the natural-language rule parser `create_rule_from_natural_language`
  of the same module, and
* the tool-call result handling of `MCPClient.call_tool` /
  `MCPClient._send_request` of `app/core/mcp_client.py`,

and proves (or refutes) the specification claims about them.

Modelling conventions:

* `datetime` values are integers counting seconds; `timedelta(minutes=m)`
  is `60 * m` seconds.  Python `int` fields (`window_minutes`,
  `duration_minutes`) are `Int`.
* Python `float` values are modelled as `FVal`: an exact rational
  (`FVal.num`) or the IEEE-754 `NaN` (`FVal.nan`).  The engine only ever
  compares floats (it performs no arithmetic on them), and on non-NaN
  values the six comparisons agree with the rational ones, so this
  embedding is exact for every value expressible in the claims.
* A value stored in `event.data` is modelled by its outcome under
  Python's `float(·)` coercion (`DVal`): coercible to a finite float,
  coercible to NaN, or not coercible (`float(...)` raises
  `ValueError`/`TypeError`, or the key's value is `None`).
* The per-rule buffers (`self.event_buffer`) and per-rule/per-source
  latches (`self.condition_state`) are total functions from rule id
  (resp. rule id and source id), mirroring the `defaultdict`s.
* Python dict iteration order over `self.rules` is the registration
  order; the engine state keeps the rules as a list in that order.
-/

namespace SimpleCEP

/-- The six comparison operators of `ConditionOperator`. -/
inductive Op where
  | gt | gte | lt | lte | eq | ne
deriving DecidableEq, Repr

/-- A Python float: an exact rational value or IEEE-754 NaN.  (The engine
only compares floats, never computes with them, so rationals are exact.) -/
inductive FVal where
  | num (q : ℚ)
  | nan
deriving DecidableEq, Repr

/-- A value found in `event.data`, classified by the outcome of Python's
`float(·)` coercion as used in `_evaluate_rule`: a finite number, a NaN,
or a value that is `None` / fails to coerce. -/
inductive DVal where
  | num (q : ℚ)
  | nan
  | nonNumeric
deriving DecidableEq, Repr

/-- IEEE-754 `<` on floats: false whenever either side is NaN. -/
def fLt : FVal → FVal → Bool
  | FVal.num a, FVal.num b => decide (a < b)
  | _, _ => false

/-- IEEE-754 `<=` on floats: false whenever either side is NaN. -/
def fLe : FVal → FVal → Bool
  | FVal.num a, FVal.num b => decide (a ≤ b)
  | _, _ => false

/-- IEEE-754 `==` on floats: false whenever either side is NaN. -/
def fEq : FVal → FVal → Bool
  | FVal.num a, FVal.num b => decide (a = b)
  | _, _ => false

/-- `SimpleCEPEngine._check_condition(value, operator, threshold)`.
Python's `!=` on floats is the negation of `==`, hence true on NaN. -/
def checkCondition (value : FVal) (op : Op) (threshold : FVal) : Bool :=
  match op with
  | Op.gt => fLt threshold value
  | Op.gte => fLe threshold value
  | Op.lt => fLt value threshold
  | Op.lte => fLe value threshold
  | Op.eq => fEq value threshold
  | Op.ne => !(fEq value threshold)

/-- The `Event` dataclass.  `timestamp` is in seconds; `data` maps column
names to (coercion-classified) values. -/
structure Event where
  timestamp : Int
  source_id : String
  event_type : String
  data : List (String × DVal)
deriving DecidableEq, Repr

/-- The `EventRule` dataclass.  `action_config` is carried opaquely by the
engine and never read by it, so it is omitted. -/
structure EventRule where
  id : String
  name : String
  description : String
  field_name : String
  operator : Op
  threshold : FVal
  window_minutes : Int
  duration_minutes : Int
  action_type : String
  is_active : Bool := true
  last_triggered_at : Option Int := none
  trigger_count : Nat := 0
deriving DecidableEq, Repr

/-- The `TriggerResult` dataclass (without the unused `action_result`). -/
structure TriggerResult where
  rule_id : String
  rule_name : String
  triggered_at : Int
  condition_met_duration : Int
  matching_events : List Event
  action_type : String
deriving DecidableEq, Repr

/-- `event.data.get(field)`: first binding of the key, if any. -/
def dataGet : List (String × DVal) → String → Option DVal
  | [], _ => none
  | (k, v) :: rest, key => if k = key then some v else dataGet rest key

/-- The `float(field_value)` coercion step of `_evaluate_rule`:
`none` models the caught `ValueError`/`TypeError` (and the `None` value). -/
def coerceFloat : DVal → Option FVal
  | DVal.num q => some (FVal.num q)
  | DVal.nan => some FVal.nan
  | DVal.nonNumeric => none

/-- Output of `_evaluate_rule`: the optional trigger, the (possibly
counter-updated) rule, and the new per-source latch map of the rule. -/
structure EvalOut where
  trigger : Option TriggerResult
  rule : EventRule
  cs : String → Option Int

/-- `SimpleCEPEngine._evaluate_rule(rule, latest_event)`.

`buf` is `self.event_buffer[rule.id]` as it stands after the append and
window eviction done by `send_event`; `csr` is
`self.condition_state[rule.id]` (source id ↦ `first_met_time`). -/
def evaluateRule (rule : EventRule) (buf : List Event) (csr : String → Option Int)
    (ev : Event) : EvalOut :=
  match dataGet ev.data rule.field_name with
  | none => ⟨none, rule, csr⟩
  | some dv =>
    match coerceFloat dv with
    | none => ⟨none, rule, csr⟩
    | some v =>
      if checkCondition v rule.operator rule.threshold then
        -- condition met: open the latch if absent, then check the duration
        let first : Int := (csr ev.source_id).getD ev.timestamp
        let dur : Int := ev.timestamp - first
        if 60 * rule.duration_minutes ≤ dur then
          ⟨some { rule_id := rule.id
                , rule_name := rule.name
                , triggered_at := ev.timestamp
                , condition_met_duration := dur
                , matching_events :=
                    buf.filter fun e => e.source_id == ev.source_id && first ≤ e.timestamp
                , action_type := rule.action_type }
          , { rule with last_triggered_at := some ev.timestamp
                      , trigger_count := rule.trigger_count + 1 }
          , fun s => if s = ev.source_id then none else csr s⟩
        else
          ⟨none, rule, fun s => if s = ev.source_id then some first else csr s⟩
      else
        -- condition not met: reset the latch for this source
        ⟨none, rule, fun s => if s = ev.source_id then none else csr s⟩

/-- Engine state: `self.rules` (in dict insertion order), plus the
`event_buffer` and `condition_state` defaultdicts. -/
structure CEPState where
  rules : List EventRule
  buffers : String → List Event
  condState : String → String → Option Int

/-- A fresh `SimpleCEPEngine()`. -/
def emptyState : CEPState :=
  { rules := [], buffers := fun _ => [], condState := fun _ _ => none }

/-- `self.rules[rule.id] = rule`: replace in place if the id exists,
otherwise append (Python dict assignment semantics). -/
def putRule : List EventRule → EventRule → List EventRule
  | [], r => [r]
  | x :: xs, r => if x.id = r.id then r :: xs else x :: putRule xs r

/-- `SimpleCEPEngine.register_rule(rule)`: store the rule and reset its
buffer and condition state. -/
def registerRule (st : CEPState) (r : EventRule) : CEPState :=
  { rules := putRule st.rules r
  , buffers := fun rid => if rid = r.id then [] else st.buffers rid
  , condState := fun rid => if rid = r.id then (fun _ => none) else st.condState rid }

/-- Modelled from the spec: the rule registry's `toggle(id)` ("flips
`is_active`; an inactive rule is skipped by CEP evaluation").  The
registry lives in the events router, which is not among the sources; it
mutates `rule.is_active` on the registered rule object in place. -/
def setRuleActive (st : CEPState) (rid : String) (b : Bool) : CEPState :=
  { st with rules := st.rules.map fun r => if r.id = rid then { r with is_active := b } else r }

/-- Accumulator of the `for rule_id, rule in self.rules.items()` loop of
`send_event`: rules processed so far, current buffers and latches, and
the `results` list. -/
structure StepAcc where
  rs : List EventRule
  bufs : String → List Event
  cs : String → String → Option Int
  res : List TriggerResult

/-- One iteration of the `send_event` loop for one registered rule:
skip inactive rules; otherwise append the event to the rule's buffer,
evict events older than the window, and evaluate the rule. -/
def stepRule (ev : Event) (acc : StepAcc) (rule : EventRule) : StepAcc :=
  if rule.is_active then
    let buf2 := (acc.bufs rule.id ++ [ev]).filter
      fun e => ev.timestamp - 60 * rule.window_minutes ≤ e.timestamp
    let out := evaluateRule rule buf2 (acc.cs rule.id) ev
    { rs := acc.rs ++ [out.rule]
    , bufs := fun rid => if rid = rule.id then buf2 else acc.bufs rid
    , cs := fun rid => if rid = rule.id then out.cs else acc.cs rid
    , res := acc.res ++ out.trigger.toList }
  else
    { acc with rs := acc.rs ++ [rule] }

/-- `SimpleCEPEngine.send_event(event)`: new engine state and the list of
triggered results. -/
def sendEvent (st : CEPState) (ev : Event) : CEPState × List TriggerResult :=
  let acc := st.rules.foldl (stepRule ev)
    ⟨[], st.buffers, st.condState, []⟩
  (⟨acc.rs, acc.bufs, acc.cs⟩, acc.res)

/-- Repeated `send_event` calls, recording each call's returned list. -/
def runTrace (st : CEPState) (evs : List Event) : CEPState × List (List TriggerResult) :=
  evs.foldl (fun p ev =>
    let out := sendEvent p.1 ev
    (out.1, p.2 ++ [out.2])) (st, [])

end SimpleCEP

namespace SimpleCEP

/-! ### Local characterization of one `send_event` loop iteration

`send_event` walks the registered rules in order.  When the rule ids are
distinct (which `register_rule`, keyed by a Python dict, guarantees),
each rule's buffer and latch map are touched only by its own iteration,
so the whole call is characterized rule-by-rule from the pre-state. -/

/-- The buffer a rule holds right after `send_event` appended `ev` and
evicted events older than the window, computed from an accumulator. -/
def accBuf (acc : StepAcc) (ev : Event) (r : EventRule) : List Event :=
  (acc.bufs r.id ++ [ev]).filter fun e => ev.timestamp - 60 * r.window_minutes ≤ e.timestamp

/-- The `_evaluate_rule` outcome for `r` on `ev`, computed from an
accumulator. -/
def accEval (acc : StepAcc) (ev : Event) (r : EventRule) : EvalOut :=
  evaluateRule r (accBuf acc ev r) (acc.cs r.id) ev

/-- The buffer a rule holds right after the append/evict step of
`send_event`, computed from the pre-state. -/
def localBuf (st : CEPState) (ev : Event) (r : EventRule) : List Event :=
  (st.buffers r.id ++ [ev]).filter fun e => ev.timestamp - 60 * r.window_minutes ≤ e.timestamp

/-- The `_evaluate_rule` outcome for `r` on `ev` from the pre-state. -/
def localEval (st : CEPState) (ev : Event) (r : EventRule) : EvalOut :=
  evaluateRule r (localBuf st ev r) (st.condState r.id) ev

theorem stepRule_bufs_ne (ev : Event) (acc : StepAcc) (rule : EventRule) (rid : String)
    (hne : rid ≠ rule.id) : (stepRule ev acc rule).bufs rid = acc.bufs rid := by
  by_cases hr : rule.is_active <;> simp [stepRule, hr, hne]

theorem stepRule_cs_ne (ev : Event) (acc : StepAcc) (rule : EventRule) (rid : String)
    (hne : rid ≠ rule.id) : (stepRule ev acc rule).cs rid = acc.cs rid := by
  by_cases hr : rule.is_active <;> simp [stepRule, hr, hne]

theorem stepRule_rs (ev : Event) (acc : StepAcc) (rule : EventRule) :
    (stepRule ev acc rule).rs
      = acc.rs ++ [if rule.is_active then (accEval acc ev rule).rule else rule] := by
  by_cases hr : rule.is_active <;> simp [stepRule, hr, accEval, accBuf]

theorem stepRule_res (ev : Event) (acc : StepAcc) (rule : EventRule) :
    (stepRule ev acc rule).res
      = acc.res ++ (if rule.is_active then (accEval acc ev rule).trigger else none).toList := by
  by_cases hr : rule.is_active <;> simp [stepRule, hr, accEval, accBuf]

theorem stepRule_bufs_self (ev : Event) (acc : StepAcc) (rule : EventRule) :
    (stepRule ev acc rule).bufs rule.id
      = if rule.is_active then accBuf acc ev rule else acc.bufs rule.id := by
  by_cases hr : rule.is_active <;> simp [stepRule, hr, accBuf]

theorem stepRule_cs_self (ev : Event) (acc : StepAcc) (rule : EventRule) :
    (stepRule ev acc rule).cs rule.id
      = if rule.is_active then (accEval acc ev rule).cs else acc.cs rule.id := by
  by_cases hr : rule.is_active <;> simp [stepRule, hr, accEval, accBuf]

/-- Characterization of the `send_event` loop over a list of rules with
distinct ids, relative to an arbitrary starting accumulator. -/
theorem foldStep_spec (ev : Event) :
    ∀ (l : List EventRule) (acc : StepAcc), (l.map (·.id)).Nodup →
      (∀ rid, rid ∉ l.map (·.id) →
        (l.foldl (stepRule ev) acc).bufs rid = acc.bufs rid ∧
        (l.foldl (stepRule ev) acc).cs rid = acc.cs rid) ∧
      (l.foldl (stepRule ev) acc).rs
        = acc.rs ++ l.map (fun r => if r.is_active then (accEval acc ev r).rule else r) ∧
      (l.foldl (stepRule ev) acc).res
        = acc.res ++ l.filterMap (fun r => if r.is_active then (accEval acc ev r).trigger else none) ∧
      (∀ r ∈ l,
        (l.foldl (stepRule ev) acc).bufs r.id
            = (if r.is_active then accBuf acc ev r else acc.bufs r.id) ∧
        (l.foldl (stepRule ev) acc).cs r.id
            = (if r.is_active then (accEval acc ev r).cs else acc.cs r.id)) := by
  intro l
  induction l with
  | nil => intro acc _; simp
  | cons r0 rest ih =>
    intro acc hnd
    have hboth : (∀ x ∈ rest, ¬x.id = r0.id) ∧ (rest.map (·.id)).Nodup := by
      simpa using hnd
    have hne : ∀ r ∈ rest, r.id ≠ r0.id := hboth.1
    have hnd' : (rest.map (·.id)).Nodup := hboth.2
    have h0 : r0.id ∉ rest.map (·.id) := by
      intro hmem
      obtain ⟨r, hr, hEq⟩ := List.mem_map.mp hmem
      exact hne r hr hEq
    -- the accumulator after processing `r0`
    set acc1 := stepRule ev acc r0 with hacc1
    have hfold : (r0 :: rest).foldl (stepRule ev) acc = rest.foldl (stepRule ev) acc1 := rfl
    have hb : ∀ rid, rid ≠ r0.id → acc1.bufs rid = acc.bufs rid :=
      fun rid h => stepRule_bufs_ne ev acc r0 rid h
    have hc : ∀ rid, rid ≠ r0.id → acc1.cs rid = acc.cs rid :=
      fun rid h => stepRule_cs_ne ev acc r0 rid h
    have hBufCong : ∀ r ∈ rest, accBuf acc1 ev r = accBuf acc ev r := by
      intro r hr; unfold accBuf; rw [hb r.id (hne r hr)]
    have hEvalCong : ∀ r ∈ rest, accEval acc1 ev r = accEval acc ev r := by
      intro r hr; unfold accEval; rw [hBufCong r hr, hc r.id (hne r hr)]
    obtain ⟨ihFrame, ihRs, ihRes, ihMem⟩ := ih acc1 hnd'
    refine ⟨?_, ?_, ?_, ?_⟩
    · intro rid hrid
      have hrid0 : rid ≠ r0.id := by
        intro h; exact hrid (by simp [h])
      have hridR : rid ∉ rest.map (·.id) := by
        intro h; exact hrid (by simp [h])
      rw [hfold]
      obtain ⟨hb', hc'⟩ := ihFrame rid hridR
      exact ⟨by rw [hb', hb rid hrid0], by rw [hc', hc rid hrid0]⟩
    · rw [hfold, ihRs, stepRule_rs]
      rw [List.map_congr_left (fun r hr => by rw [hEvalCong r hr])]
      simp
    · rw [hfold, ihRes, stepRule_res]
      rw [List.filterMap_congr (fun r hr => by rw [hEvalCong r hr])]
      cases hr : r0.is_active with
      | false => simp [hr, List.filterMap_cons]
      | true =>
        cases ht : (accEval acc ev r0).trigger <;>
          simp [hr, ht, List.filterMap_cons]
    · intro r hr
      rcases List.mem_cons.mp hr with hEq | hmem
      · subst hEq
        obtain ⟨hb', hc'⟩ := ihFrame r.id h0
        rw [hfold, hb', hc', hacc1, stepRule_bufs_self, stepRule_cs_self]
        exact ⟨rfl, rfl⟩
      · obtain ⟨hb', hc'⟩ := ihMem r hmem
        rw [hfold, hb', hc', hBufCong r hmem, hEvalCong r hmem,
          hb r.id (hne r hmem), hc r.id (hne r hmem)]
        exact ⟨rfl, rfl⟩

end SimpleCEP

namespace SimpleCEP

/-- The initial loop accumulator of `send_event` on state `st`. -/
def initAcc (st : CEPState) : StepAcc := ⟨[], st.buffers, st.condState, []⟩

theorem accBuf_initAcc (st : CEPState) (ev : Event) (r : EventRule) :
    accBuf (initAcc st) ev r = localBuf st ev r := rfl

theorem accEval_initAcc (st : CEPState) (ev : Event) (r : EventRule) :
    accEval (initAcc st) ev r = localEval st ev r := rfl

theorem sendEvent_def (st : CEPState) (ev : Event) :
    sendEvent st ev =
      (⟨(st.rules.foldl (stepRule ev) (initAcc st)).rs,
        (st.rules.foldl (stepRule ev) (initAcc st)).bufs,
        (st.rules.foldl (stepRule ev) (initAcc st)).cs⟩,
       (st.rules.foldl (stepRule ev) (initAcc st)).res) := rfl

/-- With distinct rule ids, the rules after `send_event` are the old rules,
each active one updated by its own `_evaluate_rule` outcome. -/
theorem sendEvent_rules (st : CEPState) (ev : Event)
    (hnd : (st.rules.map (·.id)).Nodup) :
    (sendEvent st ev).1.rules
      = st.rules.map (fun r => if r.is_active then (localEval st ev r).rule else r) := by
  have h := (foldStep_spec ev st.rules (initAcc st) hnd).2.1
  rw [sendEvent_def]
  simpa [initAcc] using h

/-- With distinct rule ids, the results of `send_event` are exactly the
triggers of the active rules, in registration order. -/
theorem sendEvent_results (st : CEPState) (ev : Event)
    (hnd : (st.rules.map (·.id)).Nodup) :
    (sendEvent st ev).2
      = st.rules.filterMap (fun r => if r.is_active then (localEval st ev r).trigger else none) := by
  have h := (foldStep_spec ev st.rules (initAcc st) hnd).2.2.1
  rw [sendEvent_def]
  simpa [initAcc] using h

/-- With distinct rule ids, the buffer of a registered rule after
`send_event`: appended-and-evicted if the rule is active, untouched if not. -/
theorem sendEvent_buffers (st : CEPState) (ev : Event) (r : EventRule)
    (hnd : (st.rules.map (·.id)).Nodup) (hr : r ∈ st.rules) :
    (sendEvent st ev).1.buffers r.id
      = if r.is_active then localBuf st ev r else st.buffers r.id := by
  have h := ((foldStep_spec ev st.rules (initAcc st) hnd).2.2.2 r hr).1
  rw [sendEvent_def]
  simpa [initAcc] using h

/-- With distinct rule ids, the latch map of a registered rule after
`send_event`: updated by its own `_evaluate_rule` outcome if the rule is
active, untouched if not. -/
theorem sendEvent_condState (st : CEPState) (ev : Event) (r : EventRule)
    (hnd : (st.rules.map (·.id)).Nodup) (hr : r ∈ st.rules) :
    (sendEvent st ev).1.condState r.id
      = if r.is_active then (localEval st ev r).cs else st.condState r.id := by
  have h := ((foldStep_spec ev st.rules (initAcc st) hnd).2.2.2 r hr).2
  rw [sendEvent_def]
  simpa [initAcc] using h

/-! ### Case equations for `_evaluate_rule` -/

/-- The watched field's value after `data.get` and `float(·)` coercion. -/
def fieldValue (rule : EventRule) (ev : Event) : Option FVal :=
  (dataGet ev.data rule.field_name).bind coerceFloat

/-- Missing or non-coercible field: `_evaluate_rule` changes nothing. -/
theorem evaluateRule_noValue (rule : EventRule) (buf : List Event)
    (csr : String → Option Int) (ev : Event)
    (h : fieldValue rule ev = none) :
    evaluateRule rule buf csr ev = ⟨none, rule, csr⟩ := by
  cases hd : dataGet ev.data rule.field_name with
  | none => simp [evaluateRule, hd]
  | some dv =>
    cases hc : coerceFloat dv with
    | none => simp [evaluateRule, hd, hc]
    | some v => simp [fieldValue, hd, hc] at h

/-- Condition not met: `_evaluate_rule` resets the latch for the source. -/
theorem evaluateRule_notMet (rule : EventRule) (buf : List Event)
    (csr : String → Option Int) (ev : Event) (v : FVal)
    (h : fieldValue rule ev = some v)
    (hm : checkCondition v rule.operator rule.threshold = false) :
    evaluateRule rule buf csr ev
      = ⟨none, rule, fun s => if s = ev.source_id then none else csr s⟩ := by
  cases hd : dataGet ev.data rule.field_name with
  | none => simp [fieldValue, hd] at h
  | some dv =>
    cases hc : coerceFloat dv with
    | none => simp [fieldValue, hd, hc] at h
    | some v' =>
      have hv : v' = v := by simpa [fieldValue, hd, hc] using h
      subst hv
      simp [evaluateRule, hd, hc, hm]

/-- Condition met but duration gate not passed: the latch is (re)set to
its opening time and no trigger is emitted. -/
theorem evaluateRule_met_noFire (rule : EventRule) (buf : List Event)
    (csr : String → Option Int) (ev : Event) (v : FVal)
    (h : fieldValue rule ev = some v)
    (hm : checkCondition v rule.operator rule.threshold = true)
    (hd : ¬ (60 * rule.duration_minutes ≤ ev.timestamp - (csr ev.source_id).getD ev.timestamp)) :
    evaluateRule rule buf csr ev
      = ⟨none, rule,
         fun s => if s = ev.source_id then some ((csr ev.source_id).getD ev.timestamp) else csr s⟩ := by
  cases hg : dataGet ev.data rule.field_name with
  | none => simp [fieldValue, hg] at h
  | some dv =>
    cases hc : coerceFloat dv with
    | none => simp [fieldValue, hg, hc] at h
    | some v' =>
      have hv : v' = v := by simpa [fieldValue, hg, hc] using h
      subst hv
      simp [evaluateRule, hg, hc, hm, hd]

/-- Condition met and duration gate passed: the trigger fires, the latch
is cleared, and the rule's usage counters are updated. -/
theorem evaluateRule_met_fire (rule : EventRule) (buf : List Event)
    (csr : String → Option Int) (ev : Event) (v : FVal)
    (h : fieldValue rule ev = some v)
    (hm : checkCondition v rule.operator rule.threshold = true)
    (hd : 60 * rule.duration_minutes ≤ ev.timestamp - (csr ev.source_id).getD ev.timestamp) :
    evaluateRule rule buf csr ev
      = ⟨some { rule_id := rule.id
              , rule_name := rule.name
              , triggered_at := ev.timestamp
              , condition_met_duration := ev.timestamp - (csr ev.source_id).getD ev.timestamp
              , matching_events :=
                  buf.filter fun e =>
                    e.source_id == ev.source_id
                      && (csr ev.source_id).getD ev.timestamp ≤ e.timestamp
              , action_type := rule.action_type }
        , { rule with last_triggered_at := some ev.timestamp
                    , trigger_count := rule.trigger_count + 1 }
        , fun s => if s = ev.source_id then none else csr s⟩ := by
  cases hg : dataGet ev.data rule.field_name with
  | none => simp [fieldValue, hg] at h
  | some dv =>
    cases hc : coerceFloat dv with
    | none => simp [fieldValue, hg, hc] at h
    | some v' =>
      have hv : v' = v := by simpa [fieldValue, hg, hc] using h
      subst hv
      simp [evaluateRule, hg, hc, hm, hd]

/-- Inversion: whenever `_evaluate_rule` emits a trigger, the condition
was met, the duration gate passed, the trigger carries the rule's id and
the event's timestamp, and the latch for the event's source is cleared. -/
theorem evaluateRule_trigger_inv (rule : EventRule) (buf : List Event)
    (csr : String → Option Int) (ev : Event) (tr : TriggerResult)
    (h : (evaluateRule rule buf csr ev).trigger = some tr) :
    tr.rule_id = rule.id ∧ tr.triggered_at = ev.timestamp ∧
    (∃ v, fieldValue rule ev = some v ∧
      checkCondition v rule.operator rule.threshold = true) ∧
    60 * rule.duration_minutes ≤ ev.timestamp - (csr ev.source_id).getD ev.timestamp ∧
    (evaluateRule rule buf csr ev).cs ev.source_id = none := by
  cases hg : dataGet ev.data rule.field_name with
  | none =>
    rw [evaluateRule_noValue rule buf csr ev (by simp [fieldValue, hg])] at h
    simp at h
  | some dv =>
    cases hc : coerceFloat dv with
    | none =>
      rw [evaluateRule_noValue rule buf csr ev (by simp [fieldValue, hg, hc])] at h
      simp at h
    | some v =>
      have hv : fieldValue rule ev = some v := by simp [fieldValue, hg, hc]
      by_cases hm : checkCondition v rule.operator rule.threshold
      · by_cases hdur : 60 * rule.duration_minutes
            ≤ ev.timestamp - (csr ev.source_id).getD ev.timestamp
        · rw [evaluateRule_met_fire rule buf csr ev v hv hm hdur] at h ⊢
          simp only [Option.some.injEq] at h
          subst h
          exact ⟨rfl, rfl, ⟨v, hv, hm⟩, hdur, by simp⟩
        · rw [evaluateRule_met_noFire rule buf csr ev v hv hm hdur] at h
          simp at h
      · rw [evaluateRule_notMet rule buf csr ev v hv (by simpa using hm)] at h
        simp at h

end SimpleCEP

namespace SimpleCEP

/-- Origin of a trigger: with distinct rule ids, a trigger returned by
`send_event` whose `rule_id` is `r.id` was produced by rule `r` itself,
which must be active. -/
theorem sendEvent_trigger_origin (st : CEPState) (ev : Event)
    (hnd : (st.rules.map (·.id)).Nodup) (r : EventRule) (hr : r ∈ st.rules)
    (tr : TriggerResult) (htr : tr ∈ (sendEvent st ev).2) (hid : tr.rule_id = r.id) :
    r.is_active = true ∧ (localEval st ev r).trigger = some tr := by
  rw [sendEvent_results st ev hnd] at htr
  obtain ⟨r', hr', hfr⟩ := List.mem_filterMap.mp htr
  by_cases ha : r'.is_active
  · rw [if_pos ha] at hfr
    have hinv := evaluateRule_trigger_inv r' (localBuf st ev r') (st.condState r'.id) ev tr hfr
    have hid' : r'.id = r.id := hinv.1 ▸ hid
    have : r' = r := List.inj_on_of_nodup_map hnd hr' hr hid'
    subst this
    exact ⟨ha, hfr⟩
  · rw [if_neg ha] at hfr
    exact absurd hfr (by simp)

/-- The float `3.5` as an exact rational (`Rat.mk'` so that the kernel
can evaluate comparisons on it). -/
def q3_5 : ℚ := Rat.mk' 7 2 (by decide) (by decide)

/-- Event constructor used by the concrete scenarios. -/
def mkEv (t : Int) (src : String) (d : List (String × DVal)) : Event :=
  { timestamp := t, source_id := src, event_type := "water_level", data := d }

/-- The rule of spec §8 scenario 1: field `water_level`, op `>=`,
threshold `3.0`, duration `10`, window `30`. -/
def ruleC1 : EventRule :=
  { id := "r1", name := "rule1", description := "water level rule"
  , field_name := "water_level", operator := Op.gte, threshold := FVal.num 3
  , window_minutes := 30, duration_minutes := 10, action_type := "alert" }

/-- Scenario 1 events: one per minute from 10:00:00 (= second 36000),
source `"S1"`, `water_level = 3.5`. -/
def evC1 (i : Nat) : Event :=
  mkEv (36000 + 60 * (i : Int)) "S1" [("water_level", DVal.num q3_5)]

/-- The per-call trigger lists of scenario 1: 13 events submitted one by
one to an engine holding exactly the registered rule `ruleC1`. -/
def traceC1 : List (List TriggerResult) :=
  (runTrace (registerRule emptyState ruleC1) ((List.range 13).map evC1)).2

/-- C1 (confirmed).  Submitting the 13 events of spec §8 scenario 1 one
per minute produces exactly one `TriggerResult` over all the calls; it is
returned by the call for the 10:10:00 event (index 10), its
`triggered_at` is 10:10:00 (second 36600) and its `matching_events` list
has exactly 11 events. -/
theorem claim_C1 :
    traceC1.map (·.length) = [0, 0, 0, 0, 0, 0, 0, 0, 0, 0, 1, 0, 0] ∧
    (traceC1.getD 10 []).map (fun t => (t.triggered_at, t.matching_events.length))
      = [(36600, 11)] := by
  decide

/-- State for the C2 counterexample: register `ruleC1`, feed one event at
second 36000 (so the buffer holds it), then deactivate the rule. -/
def stC2 : CEPState :=
  setRuleActive (sendEvent (registerRule emptyState ruleC1) (evC1 0)).1 "r1" false

/-- A much later event: second 42000, 100 minutes after the first. -/
def evC2 : Event := mkEv 42000 "S1" [("water_level", DVal.num q3_5)]

/-- C2 counterexample.  The claim quantifies over all registered rules,
but `send_event` skips inactive rules before the window eviction: after
deactivating `"r1"` (window 30 minutes), a `send_event` at second 42000
leaves the event of second 36000 in the rule's buffer, which is strictly
older than `42000 - 60*30`. -/
theorem claim_C2_counterexample :
    ((sendEvent stC2 evC2).1.buffers "r1").any
        (fun e => e.timestamp < evC2.timestamp - 60 * 30) = true ∧
    (stC2.rules.map fun r => (r.id, r.is_active, r.window_minutes))
      = [("r1", false, 30)] := by
  decide

/-- C2 (amended: restricted to **active** registered rules).  Immediately
after `send_event(e)` returns, the buffer of every registered active rule
contains no event strictly older than `e.timestamp` minus the rule's
window. -/
theorem claim_C2 (st : CEPState) (ev : Event)
    (hnd : (st.rules.map (·.id)).Nodup) (r : EventRule) (hr : r ∈ st.rules)
    (ha : r.is_active = true) :
    ∀ e ∈ (sendEvent st ev).1.buffers r.id,
      ev.timestamp - 60 * r.window_minutes ≤ e.timestamp := by
  intro e he
  rw [sendEvent_buffers st ev r hnd hr, if_pos ha] at he
  unfold localBuf at he
  exact of_decide_eq_true (List.mem_filter.mp he).2

/-- Witness for C2 at a concrete engine state and buffer member. -/
theorem claim_C2_witness :
    (evC1 0).timestamp - 60 * ruleC1.window_minutes ≤ (evC1 0).timestamp :=
  claim_C2 (registerRule emptyState ruleC1) (evC1 0) (by decide) ruleC1 (by decide) rfl
    (evC1 0) (by decide)

end SimpleCEP

namespace SimpleCEP

/-- Duration-0 variant of the scenario rule, used to exhibit immediate
re-fires. -/
def ruleC3 : EventRule := { ruleC1 with id := "r3", duration_minutes := 0 }

/-- C3 counterexample.  With `duration_minutes = 0`, two consecutive
satisfying events from the same source each fire a trigger: the source
re-fires although it never delivered a non-satisfying event after the
first fire.  This refutes "an uninterrupted continuation of satisfying
events after a fire never re-fires". -/
theorem claim_C3_counterexample :
    ((runTrace (registerRule emptyState ruleC3)
        [mkEv 36000 "S1" [("water_level", DVal.num q3_5)],
         mkEv 36060 "S1" [("water_level", DVal.num q3_5)]]).2).map (·.length)
      = [1, 1] := by
  decide

/-- C3 (amended).  After a fire for `(r, s)` the latch for `(r, s)` is
cleared, so with a positive duration the very next call cannot re-fire
for `(r, s)`; a later fire for `(r, s)` requires the run recorded by the
(re-opened) latch to span at least `duration_minutes` again.  No
intervening non-satisfying event is required: the latch re-opens at the
first satisfying event after the fire. -/
theorem claim_C3 (st : CEPState) (ev : Event)
    (hnd : (st.rules.map (·.id)).Nodup) (r : EventRule) (hr : r ∈ st.rules) :
    (∀ tr ∈ (sendEvent st ev).2, tr.rule_id = r.id →
        (sendEvent st ev).1.condState r.id ev.source_id = none) ∧
    (st.condState r.id ev.source_id = none → 0 < r.duration_minutes →
        ∀ tr ∈ (sendEvent st ev).2, tr.rule_id ≠ r.id) ∧
    (∀ f, st.condState r.id ev.source_id = some f →
        ∀ tr ∈ (sendEvent st ev).2, tr.rule_id = r.id →
          60 * r.duration_minutes ≤ ev.timestamp - f) := by
  refine ⟨?_, ?_, ?_⟩
  · intro tr htr hid
    obtain ⟨ha, hfire⟩ := sendEvent_trigger_origin st ev hnd r hr tr htr hid
    have hinv := evaluateRule_trigger_inv r (localBuf st ev r) (st.condState r.id) ev tr hfire
    rw [sendEvent_condState st ev r hnd hr, if_pos ha]
    exact hinv.2.2.2.2
  · intro hlatch hdur tr htr hid
    obtain ⟨ha, hfire⟩ := sendEvent_trigger_origin st ev hnd r hr tr htr hid
    have hinv := evaluateRule_trigger_inv r (localBuf st ev r) (st.condState r.id) ev tr hfire
    have hle := hinv.2.2.2.1
    rw [hlatch] at hle
    simp only [Option.getD_none, sub_self] at hle
    omega
  · intro f hlatch tr htr hid
    obtain ⟨ha, hfire⟩ := sendEvent_trigger_origin st ev hnd r hr tr htr hid
    have hinv := evaluateRule_trigger_inv r (localBuf st ev r) (st.condState r.id) ev tr hfire
    have hle := hinv.2.2.2.1
    rwa [hlatch, Option.getD_some] at hle

/-- Witness for C3, part one, at a concrete fire: after the duration-0
rule fires on the first event, its latch for `"S1"` is cleared. -/
theorem claim_C3_witness :
    (sendEvent (registerRule emptyState ruleC3)
        (mkEv 36000 "S1" [("water_level", DVal.num q3_5)])).1.condState
      ruleC3.id "S1" = none :=
  (claim_C3 (registerRule emptyState ruleC3)
      (mkEv 36000 "S1" [("water_level", DVal.num q3_5)])
      (by decide) ruleC3 (by decide)).1
    { rule_id := "r3", rule_name := "rule1", triggered_at := 36000
    , condition_met_duration := 0
    , matching_events := [mkEv 36000 "S1" [("water_level", DVal.num q3_5)]]
    , action_type := "alert" }
    (by decide) (by decide)

/-- An event whose `data` lacks the watched key entirely. -/
def evC4 : Event := mkEv 36000 "S1" [("flow_rate", DVal.num q3_5)]

/-- C4 counterexample.  `send_event` appends the event to the buffer (and
evicts) *before* extracting the field, so an event without the watched
key still changes the rule's buffer, contrary to "causes no state change
for r: in particular r's event buffer ... exactly as before". -/
theorem claim_C4_counterexample :
    ((sendEvent (registerRule emptyState ruleC1) evC4).1.buffers "r1").length = 1 ∧
    ((registerRule emptyState ruleC1).buffers "r1").length = 0 := by
  decide

/-- C4 (amended).  If the watched field is absent or not coercible, the
call yields no trigger for the rule and leaves its latches,
`trigger_count` and `last_triggered_at` unchanged — but the event **is**
appended to the rule's buffer, and window eviction still runs. -/
theorem claim_C4 (st : CEPState) (ev : Event)
    (hnd : (st.rules.map (·.id)).Nodup) (r : EventRule) (hr : r ∈ st.rules)
    (ha : r.is_active = true) (hv : fieldValue r ev = none) :
    (∀ tr ∈ (sendEvent st ev).2, tr.rule_id ≠ r.id) ∧
    (sendEvent st ev).1.condState r.id = st.condState r.id ∧
    (∀ i : Nat, st.rules[i]? = some r → (sendEvent st ev).1.rules[i]? = some r) ∧
    (sendEvent st ev).1.buffers r.id = localBuf st ev r := by
  have hev : localEval st ev r = ⟨none, r, st.condState r.id⟩ :=
    evaluateRule_noValue r (localBuf st ev r) (st.condState r.id) ev hv
  refine ⟨?_, ?_, ?_, ?_⟩
  · intro tr htr hid
    obtain ⟨_, hfire⟩ := sendEvent_trigger_origin st ev hnd r hr tr htr hid
    rw [hev] at hfire
    exact absurd hfire (by simp)
  · rw [sendEvent_condState st ev r hnd hr, if_pos ha, hev]
  · intro i hi
    rw [sendEvent_rules st ev hnd, List.getElem?_map, hi]
    simp [ha, hev]
  · rw [sendEvent_buffers st ev r hnd hr, if_pos ha]

/-- Witness for C4 at a concrete engine state and field-less event. -/
theorem claim_C4_witness :
    (sendEvent (registerRule emptyState ruleC1) evC4).1.condState ruleC1.id
        = (registerRule emptyState ruleC1).condState ruleC1.id ∧
    (sendEvent (registerRule emptyState ruleC1) evC4).1.rules[0]? = some ruleC1 ∧
    (sendEvent (registerRule emptyState ruleC1) evC4).1.buffers ruleC1.id
        = localBuf (registerRule emptyState ruleC1) evC4 ruleC1 :=
  ⟨(claim_C4 (registerRule emptyState ruleC1) evC4 (by decide) ruleC1 (by decide)
      rfl (by decide)).2.1,
   (claim_C4 (registerRule emptyState ruleC1) evC4 (by decide) ruleC1 (by decide)
      rfl (by decide)).2.2.1 0 (by decide),
   (claim_C4 (registerRule emptyState ruleC1) evC4 (by decide) ruleC1 (by decide)
      rfl (by decide)).2.2.2⟩

/-- Not-equal variant of the scenario rule, duration 0. -/
def ruleC5 : EventRule :=
  { ruleC1 with id := "r5", operator := Op.ne, duration_minutes := 0 }

/-- An event whose watched value coerces to NaN. -/
def evC5 : Event := mkEv 36000 "S1" [("water_level", DVal.nan)]

/-- C5 counterexample.  `NaN != threshold` is true in IEEE-754 (Python's
`!=` is the negation of `==`), so a NaN-valued event satisfies the `!=`
predicate and — with duration 0 — immediately produces a trigger,
contrary to "the rule's predicate is not satisfied for any of the six
operators ... never produces a trigger". -/
theorem claim_C5_counterexample :
    checkCondition FVal.nan Op.ne (FVal.num 3) = true ∧
    ((sendEvent (registerRule emptyState ruleC5) evC5).2).length = 1 := by
  decide

/-- C5 (amended).  A NaN value never satisfies `>`, `>=`, `<`, `<=`, `==`
for any threshold, but it always satisfies `!=`. -/
theorem claim_C5 :
    ∀ t : FVal,
      checkCondition FVal.nan Op.gt t = false ∧
      checkCondition FVal.nan Op.gte t = false ∧
      checkCondition FVal.nan Op.lt t = false ∧
      checkCondition FVal.nan Op.lte t = false ∧
      checkCondition FVal.nan Op.eq t = false ∧
      checkCondition FVal.nan Op.ne t = true := by
  intro t
  cases t <;> simp [checkCondition, fLt, fLe, fEq]

end SimpleCEP

namespace SimpleCEP

/-- C6 (confirmed).  The duration gate of `_evaluate_rule` is the closed
comparison `duration >= timedelta(minutes=duration_minutes)`: a
satisfying event timestamped exactly `first_met_at + duration_minutes`
fires on that call, and with `duration_minutes = 0` a single satisfying
event fires on the very call that submits it (from a clear latch, or any
latch opened at or before the event). -/
theorem claim_C6 (st : CEPState) (ev : Event)
    (hnd : (st.rules.map (·.id)).Nodup) (r : EventRule) (hr : r ∈ st.rules)
    (ha : r.is_active = true) (v : FVal)
    (hv : fieldValue r ev = some v)
    (hm : checkCondition v r.operator r.threshold = true) :
    (∀ f, st.condState r.id ev.source_id = some f →
        ev.timestamp = f + 60 * r.duration_minutes →
        ∃ tr ∈ (sendEvent st ev).2, tr.rule_id = r.id ∧ tr.triggered_at = ev.timestamp) ∧
    (r.duration_minutes = 0 →
        (st.condState r.id ev.source_id = none ∨
          ∃ f, st.condState r.id ev.source_id = some f ∧ f ≤ ev.timestamp) →
        ∃ tr ∈ (sendEvent st ev).2, tr.rule_id = r.id ∧ tr.triggered_at = ev.timestamp) := by
  have main : ∀ hdur : 60 * r.duration_minutes
      ≤ ev.timestamp - ((st.condState r.id) ev.source_id).getD ev.timestamp,
      ∃ tr ∈ (sendEvent st ev).2, tr.rule_id = r.id ∧ tr.triggered_at = ev.timestamp := by
    intro hdur
    have hfire := evaluateRule_met_fire r (localBuf st ev r) (st.condState r.id) ev v hv hm hdur
    refine ⟨{ rule_id := r.id
            , rule_name := r.name
            , triggered_at := ev.timestamp
            , condition_met_duration :=
                ev.timestamp - ((st.condState r.id) ev.source_id).getD ev.timestamp
            , matching_events :=
                (localBuf st ev r).filter fun e =>
                  e.source_id == ev.source_id
                    && ((st.condState r.id) ev.source_id).getD ev.timestamp ≤ e.timestamp
            , action_type := r.action_type }, ?_, rfl, rfl⟩
    rw [sendEvent_results st ev hnd]
    refine List.mem_filterMap.mpr ⟨r, hr, ?_⟩
    rw [if_pos ha]
    show (localEval st ev r).trigger = _
    unfold localEval
    rw [hfire]
  refine ⟨?_, ?_⟩
  · intro f hlatch heq
    refine main ?_
    rw [hlatch, Option.getD_some, heq]
    omega
  · intro hd0 hlatch
    refine main ?_
    rcases hlatch with hnone | ⟨f, hsome, hle⟩
    · rw [hnone, Option.getD_none, hd0]
      omega
    · rw [hsome, Option.getD_some, hd0]
      omega

/-- Witness for C6, part one: after one satisfying event at 36000 opened
the latch, the satisfying event at exactly `36000 + 60·10` fires. -/
theorem claim_C6_witness :
    ((sendEvent (sendEvent (registerRule emptyState ruleC1) (evC1 0)).1 (evC1 10)).2.any
      fun tr => tr.rule_id == ruleC1.id && tr.triggered_at == (evC1 10).timestamp) = true := by
  obtain ⟨tr, htr, h1, h2⟩ :=
    (claim_C6 (sendEvent (registerRule emptyState ruleC1) (evC1 0)).1 (evC1 10)
        (by decide) ruleC1 (by decide) rfl (FVal.num q3_5) (by decide) (by decide)).1
      36000 (by decide) (by decide)
  exact List.any_eq_true.mpr ⟨tr, htr, by simp [h1, h2]⟩

/-- An inactive registered rule. -/
def ruleC10 : EventRule := { ruleC1 with id := "r10", is_active := false }

/-- C10 (confirmed).  `send_event` skips inactive rules entirely: the
rule's buffer (no append, no eviction), its per-source latch map and its
usage counters (the whole rule record, at its position in the registry)
are exactly as before, and no trigger is emitted for it.  Since the latch
map is untouched, a latch opened while the rule was active survives
deactivation and is used as-is once the rule is active again. -/
theorem claim_C10 (st : CEPState) (ev : Event)
    (hnd : (st.rules.map (·.id)).Nodup) (r : EventRule) (hr : r ∈ st.rules)
    (ha : r.is_active = false) :
    (sendEvent st ev).1.buffers r.id = st.buffers r.id ∧
    (sendEvent st ev).1.condState r.id = st.condState r.id ∧
    (∀ i : Nat, st.rules[i]? = some r → (sendEvent st ev).1.rules[i]? = some r) ∧
    (∀ tr ∈ (sendEvent st ev).2, tr.rule_id ≠ r.id) := by
  have hb : r.is_active = true → False := by rw [ha]; simp
  refine ⟨?_, ?_, ?_, ?_⟩
  · rw [sendEvent_buffers st ev r hnd hr, if_neg hb]
  · rw [sendEvent_condState st ev r hnd hr, if_neg hb]
  · intro i hi
    rw [sendEvent_rules st ev hnd, List.getElem?_map, hi]
    simp [ha]
  · intro tr htr hid
    obtain ⟨hact, _⟩ := sendEvent_trigger_origin st ev hnd r hr tr htr hid
    exact hb hact

/-- Witness for C10 at a concrete inactive rule. -/
theorem claim_C10_witness :
    (sendEvent (registerRule emptyState ruleC10) (evC1 0)).1.buffers ruleC10.id
        = (registerRule emptyState ruleC10).buffers ruleC10.id ∧
    (sendEvent (registerRule emptyState ruleC10) (evC1 0)).1.condState ruleC10.id
        = (registerRule emptyState ruleC10).condState ruleC10.id ∧
    (sendEvent (registerRule emptyState ruleC10) (evC1 0)).1.rules[0]? = some ruleC10 :=
  ⟨(claim_C10 (registerRule emptyState ruleC10) (evC1 0) (by decide) ruleC10
      (by decide) rfl).1,
   (claim_C10 (registerRule emptyState ruleC10) (evC1 0) (by decide) ruleC10
      (by decide) rfl).2.1,
   (claim_C10 (registerRule emptyState ruleC10) (evC1 0) (by decide) ruleC10
      (by decide) rfl).2.2.1 0 (by decide)⟩

end SimpleCEP

namespace SimpleCEP

/-- A trigger callback, as registered by `add_trigger_callback`: it either
returns normally or raises an exception carrying a message. -/
def Callback : Type := TriggerResult → Except String Unit

/-- Outcome of invoking one callback inside the `send_event` delivery
loop: normal return, or an exception that the `try/except` caught and
logged. -/
inductive CallbackOutcome where
  | ok
  | caught (msg : String)
deriving DecidableEq, Repr

/-- The `for callback in self.trigger_callbacks` loop of `send_event` for
one trigger: every callback is invoked in order; an exception is caught
(and logged) and the loop continues with the next callback. -/
def deliverToCallbacks : List Callback → TriggerResult → List CallbackOutcome
  | [], _ => []
  | cb :: rest, tr =>
    (match cb tr with
     | Except.ok _ => CallbackOutcome.ok
     | Except.error msg => CallbackOutcome.caught msg) :: deliverToCallbacks rest tr

/-- `send_event` together with callback delivery: the state transition and
results are those of `send_event`, and each returned trigger is delivered
to every registered callback. -/
def sendEventWithCallbacks (cbs : List Callback) (st : CEPState) (ev : Event) :
    CEPState × List TriggerResult × List (List CallbackOutcome) :=
  let out := sendEvent st ev
  (out.1, out.2, out.2.map (deliverToCallbacks cbs))

theorem deliverToCallbacks_append (cbs₁ cbs₂ : List Callback) (tr : TriggerResult) :
    deliverToCallbacks (cbs₁ ++ cbs₂) tr
      = deliverToCallbacks cbs₁ tr ++ deliverToCallbacks cbs₂ tr := by
  induction cbs₁ with
  | nil => rfl
  | cons cb rest ih => simp [deliverToCallbacks, ih]

/-- C7 (confirmed).  A callback that raises while `send_event` delivers a
trigger is caught: its exception is logged as a `caught` outcome, every
callback before and after it is still invoked for the same trigger, and
the engine's new state and returned trigger list are exactly those of
`send_event` — independent of the callbacks — so the trigger stays in the
result list and subsequent events are processed unaffected. -/
theorem claim_C7 (cbs₁ cbs₂ : List Callback) (cb : Callback)
    (st : CEPState) (ev : Event) :
    (sendEventWithCallbacks (cbs₁ ++ cb :: cbs₂) st ev).1 = (sendEvent st ev).1 ∧
    (sendEventWithCallbacks (cbs₁ ++ cb :: cbs₂) st ev).2.1 = (sendEvent st ev).2 ∧
    (∀ tr ∈ (sendEventWithCallbacks (cbs₁ ++ cb :: cbs₂) st ev).2.1, ∀ msg,
      cb tr = Except.error msg →
        deliverToCallbacks (cbs₁ ++ cb :: cbs₂) tr
          = deliverToCallbacks cbs₁ tr
              ++ CallbackOutcome.caught msg :: deliverToCallbacks cbs₂ tr) := by
  refine ⟨rfl, rfl, ?_⟩
  intro tr _ msg hraise
  rw [deliverToCallbacks_append]
  simp [deliverToCallbacks, hraise]

/-- A callback that always raises. -/
def raisingCallback : Callback := fun _ => Except.error "boom"

/-- A callback that always returns normally. -/
def okCallback : Callback := fun _ => Except.ok ()

/-- The trigger fired by `ruleC3` on the satisfying event at 36000. -/
def trC7 : TriggerResult :=
  { rule_id := "r3", rule_name := "rule1", triggered_at := 36000
  , condition_met_duration := 0
  , matching_events := [mkEv 36000 "S1" [("water_level", DVal.num q3_5)]]
  , action_type := "alert" }

/-- Witness for C7: with a raising callback between two normal ones, the
duration-0 rule's trigger is still delivered to all three callbacks and
the raising one's exception is merely recorded as caught. -/
theorem claim_C7_witness :
    (sendEventWithCallbacks [okCallback, raisingCallback, okCallback]
        (registerRule emptyState ruleC3)
        (mkEv 36000 "S1" [("water_level", DVal.num q3_5)])).1
      = (sendEvent (registerRule emptyState ruleC3)
          (mkEv 36000 "S1" [("water_level", DVal.num q3_5)])).1 ∧
    (sendEventWithCallbacks [okCallback, raisingCallback, okCallback]
        (registerRule emptyState ruleC3)
        (mkEv 36000 "S1" [("water_level", DVal.num q3_5)])).2.1
      = (sendEvent (registerRule emptyState ruleC3)
          (mkEv 36000 "S1" [("water_level", DVal.num q3_5)])).2 ∧
    deliverToCallbacks [okCallback, raisingCallback, okCallback] trC7
      = deliverToCallbacks [okCallback] trC7
          ++ CallbackOutcome.caught "boom" :: deliverToCallbacks [okCallback] trC7 :=
  ⟨(claim_C7 [okCallback] [okCallback] raisingCallback
      (registerRule emptyState ruleC3)
      (mkEv 36000 "S1" [("water_level", DVal.num q3_5)])).1,
   (claim_C7 [okCallback] [okCallback] raisingCallback
      (registerRule emptyState ruleC3)
      (mkEv 36000 "S1" [("water_level", DVal.num q3_5)])).2.1,
   (claim_C7 [okCallback] [okCallback] raisingCallback
      (registerRule emptyState ruleC3)
      (mkEv 36000 "S1" [("water_level", DVal.num q3_5)])).2.2 trC7 (by decide)
     "boom" rfl⟩

end SimpleCEP

namespace SimpleCEP

/-! ### `create_rule_from_natural_language`

The Python parser lowercases the input, looks for Korean field and
operator keywords with substring containment, and extracts the threshold
with `re.search(r'(\d+(?:\.\d+)?)\s*(m|미터|%|도)?')` and the duration
with `re.search(r'(\d+)\s*(분|시간).{0,5}(지속|이상)')`.  The two regex
searches are embedded as leftmost-position scans: both patterns start
with `\d+`, whose greedy run cannot backtrack usefully (the characters
following it in the patterns accept no digit), so a search attempt
succeeds at a position iff the maximal digit run starting there is
followed by the rest of the pattern. -/

/-- Decimal value of a digit run. -/
def natOfDigits (ds : List Char) : Nat :=
  ds.foldl (fun n c => 10 * n + (c.toNat - '0'.toNat)) 0

/-- Split a maximal leading digit run from the rest. -/
def splitDigits : List Char → List Char × List Char
  | [] => ([], [])
  | c :: rest =>
    if c.isDigit then
      let p := splitDigits rest
      (c :: p.1, p.2)
    else ([], c :: rest)

/-- The number matched by `(\d+(?:\.\d+)?)` at a digit position: the
digit run, plus an optional fraction when a dot followed by digits
follows. -/
def numberAt (cs : List Char) : ℚ :=
  let p := splitDigits cs
  match p.2 with
  | '.' :: r2 =>
    let f := splitDigits r2
    if f.1.isEmpty then (natOfDigits p.1 : ℚ)
    else (natOfDigits p.1 : ℚ) + (natOfDigits f.1 : ℚ) / ((10 : ℚ) ^ f.1.length)
  | _ => (natOfDigits p.1 : ℚ)

/-- `re.search` for the threshold pattern: everything after `\d+` is
optional, so it matches at the leftmost digit, if any. -/
def findThreshold : List Char → Option ℚ
  | [] => none
  | c :: rest => if c.isDigit then some (numberAt (c :: rest)) else findThreshold rest

/-- Python's `pat in text` substring containment. -/
def containsSub : List Char → List Char → Bool
  | [], pat => pat.isEmpty
  | h :: t, pat => pat.isPrefixOf (h :: t) || containsSub t pat

/-- `\s*`: drop the maximal whitespace run (the following alternatives
accept no whitespace character, so backtracking is moot). -/
def skipWs : List Char → List Char
  | [] => []
  | c :: r => if c.isWhitespace then skipWs r else c :: r

/-- The closing alternation `(지속|이상)` of the duration pattern. -/
def tailKeyword (cs : List Char) : Bool :=
  "지속".data.isPrefixOf cs || "이상".data.isPrefixOf cs

/-- `.{0,5}(지속|이상)`: the keyword within at most `k` skipped
characters, none of which may be a newline (`.` excludes `\n`). -/
def gapOk : Nat → List Char → Bool
  | 0, cs => tailKeyword cs
  | k + 1, cs =>
    tailKeyword cs ||
      match cs with
      | c :: r => c != '\n' && gapOk k r
      | [] => false

/-- One attempt of the duration pattern at a given position: digit run,
optional whitespace, the unit `분` (minutes) or `시간` (hours, ×60), then
`.{0,5}(지속|이상)`. -/
def durAt (cs : List Char) : Option Nat :=
  let p := splitDigits cs
  if p.1.isEmpty then none
  else
    let r1 := skipWs p.2
    if "분".data.isPrefixOf r1 then
      if gapOk 5 (r1.drop 1) then some (natOfDigits p.1) else none
    else if "시간".data.isPrefixOf r1 then
      if gapOk 5 (r1.drop 2) then some (natOfDigits p.1 * 60) else none
    else none

/-- `re.search` for the duration pattern: leftmost position whose attempt
succeeds. -/
def findDuration : List Char → Option Nat
  | [] => none
  | c :: rest =>
    match durAt (c :: rest) with
    | some d => some d
    | none => findDuration rest

/-- `create_rule_from_natural_language`.  (`Char.toLower` models Python's
`str.lower()`; the two agree on ASCII, and the Korean keywords have no
case.)  The returned `EventRule` carries the source's defaults
`action_type`, `is_active=True`, no `last_triggered_at`, zero
`trigger_count`. -/
def createRuleFromNaturalLanguage
    (rule_id name description natural_language action_type : String) : EventRule :=
  let text : List Char := natural_language.data.map Char.toLower
  let field_name : String :=
    if containsSub text "수위".data then "water_level"
    else if containsSub text "유량".data then "flow_rate"
    else if containsSub text "탁도".data then "turbidity"
    else "value"
  let threshold : ℚ := (findThreshold text).getD 0
  let operator : Op :=
    if containsSub text "초과".data then Op.gt
    else if containsSub text "미만".data then Op.lt
    else if containsSub text "이하".data then Op.lte
    else Op.gte
  let duration : Nat := (findDuration text).getD 0
  { id := rule_id, name := name, description := description
  , field_name := field_name, operator := operator, threshold := FVal.num threshold
  , window_minutes := max 30 ((duration : Int) * 2)
  , duration_minutes := (duration : Int)
  , action_type := action_type }

/-- C8 (confirmed).  The phrase `"수위가 2m 초과 1시간 이상 지속"` parses to
field `water_level`, operator `>`, threshold `2.0`, duration `60`,
window `120`; for every phrase `window_minutes = max(30, duration×2)`;
and the defaults — field `value`, operator `>=`, threshold `0`,
duration `0` (hence window `30`) — apply whenever the corresponding
extraction finds nothing. -/
theorem claim_C8 :
    ((createRuleFromNaturalLanguage "i" "n" "d" "수위가 2m 초과 1시간 이상 지속" "alert").field_name
        = "water_level" ∧
     (createRuleFromNaturalLanguage "i" "n" "d" "수위가 2m 초과 1시간 이상 지속" "alert").operator
        = Op.gt ∧
     (createRuleFromNaturalLanguage "i" "n" "d" "수위가 2m 초과 1시간 이상 지속" "alert").threshold
        = FVal.num 2 ∧
     (createRuleFromNaturalLanguage "i" "n" "d" "수위가 2m 초과 1시간 이상 지속" "alert").duration_minutes
        = 60 ∧
     (createRuleFromNaturalLanguage "i" "n" "d" "수위가 2m 초과 1시간 이상 지속" "alert").window_minutes
        = 120) ∧
    (∀ rule_id name description nl action_type,
      (createRuleFromNaturalLanguage rule_id name description nl action_type).window_minutes
        = max 30
            ((createRuleFromNaturalLanguage rule_id name description nl action_type).duration_minutes
              * 2)) ∧
    (∀ rule_id name description nl action_type,
      (containsSub (nl.data.map Char.toLower) "수위".data = false →
       containsSub (nl.data.map Char.toLower) "유량".data = false →
       containsSub (nl.data.map Char.toLower) "탁도".data = false →
        (createRuleFromNaturalLanguage rule_id name description nl action_type).field_name
          = "value") ∧
      (containsSub (nl.data.map Char.toLower) "초과".data = false →
       containsSub (nl.data.map Char.toLower) "미만".data = false →
       containsSub (nl.data.map Char.toLower) "이하".data = false →
        (createRuleFromNaturalLanguage rule_id name description nl action_type).operator
          = Op.gte) ∧
      (findThreshold (nl.data.map Char.toLower) = none →
        (createRuleFromNaturalLanguage rule_id name description nl action_type).threshold
          = FVal.num 0) ∧
      (findDuration (nl.data.map Char.toLower) = none →
        (createRuleFromNaturalLanguage rule_id name description nl action_type).duration_minutes
            = 0 ∧
          (createRuleFromNaturalLanguage rule_id name description nl action_type).window_minutes
            = 30)) := by
  refine ⟨by decide, ?_, ?_⟩
  · intro rule_id name description nl action_type
    rfl
  · intro rule_id name description nl action_type
    refine ⟨?_, ?_, ?_, ?_⟩
    · intro h1 h2 h3
      simp [createRuleFromNaturalLanguage, h1, h2, h3]
    · intro h1 h2 h3
      simp [createRuleFromNaturalLanguage, h1, h2, h3]
    · intro h
      simp [createRuleFromNaturalLanguage, h]
    · intro h
      refine ⟨by simp [createRuleFromNaturalLanguage, h], ?_⟩
      simp [createRuleFromNaturalLanguage, h]

/-- Witness for C8's quantified parts, at the empty phrase. -/
theorem claim_C8_witness :
    (createRuleFromNaturalLanguage "i" "n" "d" "" "alert").field_name = "value" ∧
    (createRuleFromNaturalLanguage "i" "n" "d" "" "alert").operator = Op.gte ∧
    (createRuleFromNaturalLanguage "i" "n" "d" "" "alert").threshold = FVal.num 0 ∧
    (createRuleFromNaturalLanguage "i" "n" "d" "" "alert").duration_minutes = 0 ∧
    (createRuleFromNaturalLanguage "i" "n" "d" "" "alert").window_minutes = 30 :=
  ⟨(claim_C8.2.2 "i" "n" "d" "" "alert").1 (by decide) (by decide) (by decide),
   (claim_C8.2.2 "i" "n" "d" "" "alert").2.1 (by decide) (by decide) (by decide),
   (claim_C8.2.2 "i" "n" "d" "" "alert").2.2.1 (by decide),
   ((claim_C8.2.2 "i" "n" "d" "" "alert").2.2.2 (by decide)).1,
   ((claim_C8.2.2 "i" "n" "d" "" "alert").2.2.2 (by decide)).2⟩

end SimpleCEP

namespace MCPModel

/-!
### `MCPClient.call_tool` / `MCPClient._send_request`

The JSON-RPC response line, once parsed, is modelled as an optional JSON
object (`none` models an empty/unreadable line and a line whose parse
fails; responses are JSON-RPC objects).  `json.loads` applied to the
`text` payload of a content item is repository-external, so it is passed
as an oracle `parse`; exception messages (`str(e)`) are abstracted to
the exception's name.
-/

/-- A JSON value. -/
inductive JValue where
  | null
  | jbool (b : Bool)
  | jnum (q : ℚ)
  | jstr (s : String)
  | jarr (items : List JValue)
  | jobj (fields : List (String × JValue))

/-- Dictionary lookup on a parsed JSON object. -/
def jLookup : List (String × JValue) → String → Option JValue
  | [], _ => none
  | (k, v) :: rest, key => if k = key then some v else jLookup rest key

/-- Python truthiness of a JSON value (`if result:`). -/
def jTruthy : JValue → Bool
  | JValue.null => false
  | JValue.jbool b => b
  | JValue.jnum q => decide (q ≠ 0)
  | JValue.jstr s => decide (s ≠ "")
  | JValue.jarr l => !l.isEmpty
  | JValue.jobj l => !l.isEmpty

/-- `MCPToolResult`. -/
structure MCPToolResultM where
  success : Bool
  content : Option JValue
  error : Option String

/-- `MCPClient._send_request` from the point where the response line has
been parsed (lines 188-202): a response carrying an `error` member is
logged and dropped (`return None`); otherwise `response.get("result")`
is returned. -/
def sendRequestModel (resp : Option (List (String × JValue))) : Option JValue :=
  match resp with
  | none => none
  | some fields =>
    if (jLookup fields "error").isSome then none else jLookup fields "result"

/-- The content-unwrapping block of `call_tool`: a non-empty list whose
first entry is a dict with a `text` key gets its text JSON-parsed
(falling back to the raw text on `JSONDecodeError`); `json.loads` of a
non-string `text` raises `TypeError`, caught by the surrounding
`except`; anything else is returned verbatim. -/
def contentStep (parse : String → Option JValue) (content : JValue) : MCPToolResultM :=
  match content with
  | JValue.jarr (first :: rest) =>
    match first with
    | JValue.jobj ffields =>
      match jLookup ffields "text" with
      | some (JValue.jstr s) =>
        (match parse s with
         | some parsed => ⟨true, some parsed, none⟩
         | none => ⟨true, some (JValue.jstr s), none⟩)
      | some _ => ⟨false, none, some "TypeError"⟩
      | none => ⟨true, some (JValue.jarr (first :: rest)), none⟩
    | _ => ⟨true, some (JValue.jarr (first :: rest)), none⟩
  | other => ⟨true, some other, none⟩

/-- `MCPClient.call_tool` in the connected state, given the parsed
response of its `tools/call` request.  A falsy or absent `result` yields
the fixed error string; `result.get("content", [])` on a non-dict result
raises `AttributeError`, caught by the surrounding `except`. -/
def callToolModel (parse : String → Option JValue)
    (resp : Option (List (String × JValue))) : MCPToolResultM :=
  match sendRequestModel resp with
  | some res =>
    if jTruthy res then
      match res with
      | JValue.jobj rfields =>
        contentStep parse ((jLookup rfields "content").getD (JValue.jarr []))
      | _ => ⟨false, none, some "AttributeError"⟩
    else ⟨false, none, some "No response from MCP server"⟩
  | none => ⟨false, none, some "No response from MCP server"⟩

/-- C9 counterexample.  For a response whose `error` member is the string
`"boom"`, `call_tool` returns `success=false` with the generic error
`"No response from MCP server"` and no content: the response's error is
only logged inside `_send_request` (which returns `None`), never carried
in the returned result. -/
theorem claim_C9_counterexample :
    (callToolModel (fun _ => none) (some [("error", JValue.jstr "boom")])).success
        = false ∧
    (callToolModel (fun _ => none) (some [("error", JValue.jstr "boom")])).content
        = none ∧
    (callToolModel (fun _ => none) (some [("error", JValue.jstr "boom")])).error
        = some "No response from MCP server" ∧
    (callToolModel (fun _ => none) (some [("error", JValue.jstr "boom")])).error
        ≠ some "boom" :=
  ⟨rfl, rfl, rfl, by decide⟩

/-- C9 (amended).  When the response contains an `error` member the
result is `success=false` with the fixed error string `"No response from
MCP server"` and no content (the JSON-RPC error is not carried).  When
the (truthy, dict) `result`'s content is a list whose first entry is a
dict with a string `text`, the text is JSON-parsed and the parsed value
returned on success, or the raw text on parse failure.  Other content —
not a list, an empty list, or a first entry that is not a dict with a
`text` key — is returned verbatim with `success=true`. -/
theorem claim_C9 :
    (∀ (parse : String → Option JValue) (fields : List (String × JValue)),
      (jLookup fields "error").isSome = true →
        callToolModel parse (some fields)
          = ⟨false, none, some "No response from MCP server"⟩) ∧
    (∀ (parse : String → Option JValue)
       (fields rfields ffields : List (String × JValue))
       (rest : List JValue) (s : String),
      jLookup fields "error" = none →
      jLookup fields "result" = some (JValue.jobj rfields) →
      jTruthy (JValue.jobj rfields) = true →
      jLookup rfields "content" = some (JValue.jarr (JValue.jobj ffields :: rest)) →
      jLookup ffields "text" = some (JValue.jstr s) →
        (∀ p, parse s = some p →
          callToolModel parse (some fields) = ⟨true, some p, none⟩) ∧
        (parse s = none →
          callToolModel parse (some fields) = ⟨true, some (JValue.jstr s), none⟩)) ∧
    (∀ (parse : String → Option JValue)
       (fields rfields : List (String × JValue)) (c : JValue),
      jLookup fields "error" = none →
      jLookup fields "result" = some (JValue.jobj rfields) →
      jTruthy (JValue.jobj rfields) = true →
      jLookup rfields "content" = some c →
      (∀ first rest, c = JValue.jarr (first :: rest) →
        ∀ ffields, first = JValue.jobj ffields → jLookup ffields "text" = none) →
        callToolModel parse (some fields) = ⟨true, some c, none⟩) := by
  refine ⟨?_, ?_, ?_⟩
  · intro parse fields herr
    simp [callToolModel, sendRequestModel, herr]
  · intro parse fields rfields ffields rest s herr hres htru hcont htext
    have hred : callToolModel parse (some fields)
        = contentStep parse (JValue.jarr (JValue.jobj ffields :: rest)) := by
      simp [callToolModel, sendRequestModel, herr, hres, htru, hcont]
    constructor
    · intro p hp
      rw [hred]
      simp [contentStep, htext, hp]
    · intro hp
      rw [hred]
      simp [contentStep, htext, hp]
  · intro parse fields rfields c herr hres htru hcont hshape
    have hred : callToolModel parse (some fields) = contentStep parse c := by
      simp [callToolModel, sendRequestModel, herr, hres, htru, hcont]
    rw [hred]
    cases c with
    | jarr items =>
      cases items with
      | nil => simp [contentStep]
      | cons first rest =>
        cases first with
        | jobj ffields =>
          have htext := hshape (JValue.jobj ffields) rest rfl ffields rfl
          simp [contentStep, htext]
        | null => simp [contentStep]
        | jbool b => simp [contentStep]
        | jnum q => simp [contentStep]
        | jstr s => simp [contentStep]
        | jarr l => simp [contentStep]
    | null => simp [contentStep]
    | jbool b => simp [contentStep]
    | jnum q => simp [contentStep]
    | jstr s => simp [contentStep]
    | jobj l => simp [contentStep]

/-- Witness for C9 at a concrete error response. -/
theorem claim_C9_witness :
    callToolModel (fun _ => none) (some [("error", JValue.jstr "oops")])
      = ⟨false, none, some "No response from MCP server"⟩ :=
  claim_C9.1 (fun _ => none) [("error", JValue.jstr "oops")] rfl

end MCPModel
